import Mathlib

/-!
Verification of the short-code lifecycle engine of the URL-shortening
service (backend-test-submission).  The definitions below are a shallow
embedding of controllers/urlController.js and models/url.js: time is
integer milliseconds (JS dates hold integer epoch milliseconds), the
request-body values are a JSON value type with rational numbers, the
repository is the list of stored records, and the random source behind
nanoid is an explicit byte stream.
-/

namespace UrlShortener

/-- A JSON-representable request-body value, as seen by the controller after
JSON body parsing.  Here `undefined` stands for an absent field; JSON numbers
are arbitrary decimal fractions (JSON cannot carry NaN or infinities), so
they are carried as rationals.  Arrays and objects
are collapsed into `object` (both are truthy with JS typeof `"object"`),
which is all the controller ever observes about them. -/
inductive JsValue where
  | undefined
  | null
  | boolean (b : Bool)
  | num (q : ℚ)
  | str (s : String)
  | object
deriving Repr, DecidableEq

/-- JS truthiness for `JsValue` (undefined, null, false, 0 and the empty
string are falsy; every object is truthy). -/
def JsValue.truthy : JsValue → Bool
  | .undefined => false
  | .null => false
  | .boolean b => b
  | .num q => q ≠ 0
  | .str s => s ≠ ""
  | .object => true

/-- JS typeof test for numbers. -/
def JsValue.isNumber : JsValue → Bool
  | .num _ => true
  | _ => false

/-- The numeric payload of a number value (only consulted after `isNumber`). -/
def JsValue.numVal : JsValue → ℚ
  | .num q => q
  | _ => 0

/-- JS disjunction on values as it occurs at the expiry call site
(the controller computes the expiry of `validity || 30`): by that point the
validity guard has ensured the value is undefined or a positive number, so
the disjunction yields the number when it is truthy (nonzero) and the
default otherwise.  Truthy non-numeric values cannot reach this
computation. -/
def JsValue.orDefault : JsValue → ℚ → ℚ
  | .num q, d => if q = 0 then d else q
  | _, d => d

/-- One recorded redirect occurrence (a clickHistory entry of urlSchema).
Timestamps are integer milliseconds since the epoch. -/
structure ClickEvent where
  timestamp : ℤ
  source : String
  location : String
deriving Repr, DecidableEq

/-- A stored URL document, the shape of urlSchema in models/url.js.
An `expiresAt` of `none` is the null / absent expiry. -/
structure UrlRecord where
  originalUrl : String
  shortCode : String
  createdAt : ℤ
  expiresAt : Option ℤ
  clicks : ℕ
  clickHistory : List ClickEvent
deriving Repr, DecidableEq

/-- The repository: the sequence of stored documents, in storage order. -/
abbrev Repo := List UrlRecord

/-- Embeds the findOne-by-shortCode query: the first stored record carrying
the code. -/
def findByCode (repo : Repo) (code : String) : Option UrlRecord :=
  repo.find? (fun r => r.shortCode = code)

/-- The JS regex whitespace class used by the schema pattern. -/
def jsWhitespace (c : Char) : Bool :=
  c = ' ' || c = '\t' || c = '\n' || c = '\r' || c = '\x0b' || c = '\x0c' ||
  c = '\u00A0' || c = '\u1680' || ('\u2000' ≤ c && c ≤ '\u200A') ||
  c = '\u2028' || c = '\u2029' || c = '\u202F' || c = '\u205F' ||
  c = '\u3000' || c = '\uFEFF'

/-- Characters the JS regex dot (no dotall flag) refuses: line
terminators. -/
def jsLineTerminator (c : Char) : Bool :=
  c = '\n' || c = '\r' || c = '\u2028' || c = '\u2029'

/-- Case-insensitive match of a literal ASCII prefix, returning the rest. -/
def stripPrefixCI : List Char → List Char → Option (List Char)
  | [], cs => some cs
  | _ :: _, [] => none
  | p :: ps, c :: cs =>
      if p.toLower = c.toLower then stripPrefixCI ps cs else none

/-- The originalUrl schema pattern of models/url.js, the case-insensitive
regex anchoring a scheme of http, https or ftp, then the literal separator,
then one character that is neither whitespace nor one of `/ $ . ? #`, then
any non-line-terminator character, then a run of non-whitespace characters
to the end of the string. -/
def schemaUrlMatch (s : String) : Bool :=
  let tail := (stripPrefixCI "https://".toList s.toList).orElse
    (fun _ => (stripPrefixCI "http://".toList s.toList).orElse
      (fun _ => stripPrefixCI "ftp://".toList s.toList))
  match tail with
  | some (c1 :: c2 :: rest) =>
      !jsWhitespace c1 && !(c1 = '/' || c1 = '$' || c1 = '.' || c1 = '?' || c1 = '#') &&
      !jsLineTerminator c2 && rest.all (fun c => !jsWhitespace c)
  | _ => false

/-- A scheme character after the first: ASCII alphanumeric or plus, minus,
dot (the WHATWG URL scheme grammar). -/
def isSchemeChar (c : Char) : Bool :=
  c.isAlphanum || c = '+' || c = '-' || c = '.'

/-- Splits a scheme from the rest at the first colon, accepting only scheme
characters before it. -/
def splitScheme : List Char → Option (List Char × List Char)
  | [] => none
  | c :: cs =>
      if c = ':' then some ([], cs)
      else if isSchemeChar c then
        match splitScheme cs with
        | some (sch, rest) => some (c :: sch, rest)
        | none => none
      else none

/-- The WHATWG special schemes, which require an authority with a host. -/
def specialSchemes : List String := ["http", "https", "ws", "wss", "ftp", "file"]

/-- Embeds the isValidUrl helper of the controller, i.e. whether the WHATWG
URL constructor (no base) accepts the string: it must open with an ASCII
letter followed by scheme characters up to a colon; for the special schemes
other than file a double slash with a nonempty host must follow, while any
other scheme takes an arbitrary opaque path. -/
def isValidUrl (s : String) : Bool :=
  match s.toList with
  | [] => false
  | c :: cs =>
      if !c.isAlpha then false
      else
        match splitScheme cs with
        | none => false
        | some (sch, rest) =>
            let scheme := (c :: sch).map Char.toLower
            if scheme = "file".toList then true
            else if specialSchemes.any (fun t => t.toList = scheme) then
              match rest with
              | '/' :: '/' :: h :: _ => h ≠ '/'
              | _ => false
            else true

/-- The custom-shortcode format regex of the controller: five to ten ASCII
alphanumeric characters. -/
def customCodeFormat (s : String) : Bool :=
  5 ≤ s.length && s.length ≤ 10 && s.toList.all Char.isAlphanum

/-- The specification pattern for generated codes: exactly five ASCII
alphanumeric characters. -/
def alnum5 (s : String) : Bool :=
  s.length = 5 && s.toList.all Char.isAlphanum

/-- The nanoid v3 URL-safe alphabet (64 symbols, alphanumerics plus the
hyphen and the underscore), exactly as shipped by the nanoid dependency. -/
def urlAlphabet : String :=
  "useandom-26T198340PX75pxJACKVERYMINDBUSHWOLF_GQZbfghjklqvwyzrict"

/-- One nanoid output character: the alphabet entry selected by the low six
bits of the random byte. -/
def nanoidChar (b : ℕ) : Char :=
  urlAlphabet.toList.getD (b % 64) 'u'

/-- A five-character nanoid draw, the i-th one of the request: the five
random bytes at positions 5i .. 5i+4 of the stream mapped through the
alphabet. -/
def nanoidAt (entropy : ℕ → ℕ) (i : ℕ) : String :=
  String.mk ((List.range 5).map (fun j => nanoidChar (entropy (5 * i + j))))

/-- The generation loop of createShortUrl: up to fuel (MAX_ATTEMPTS = 5)
draws of nanoid, returning the first candidate with no existing record, and
`none` when every attempt collided. -/
def findFreshCode (repo : Repo) (entropy : ℕ → ℕ) : ℕ → ℕ → Option String
  | _, 0 => none
  | i, fuel + 1 =>
      let cand := nanoidAt entropy i
      if (findByCode repo cand).isNone then some cand
      else findFreshCode repo entropy (i + 1) fuel

/-- Embeds calculateExpiry of the controller on its numeric domain (the call
site passes the validity-or-30 value, always a number): a truthy (nonzero)
value greater than zero yields now advanced by that many minutes, anything
else yields null.  The setMinutes call applies ToInteger truncation to its
minutes operand (ECMAScript MakeTime); the minutes field of the creation
date is an integer, so for a positive argument the stored instant is now
plus 60000 ms times the floor of the requested minutes -- a fractional
validity loses its fractional part. -/
def calculateExpiry (minutes : ℚ) (now : ℤ) : Option ℤ :=
  if minutes ≠ 0 ∧ 0 < minutes then some (now + 60000 * ⌊minutes⌋) else none

/-- Mongoose document validation of urlSchema, run by save on every path:
originalUrl is required and must match the schema pattern; shortCode is
required with length 5 to 10; expiresAt, when set, must satisfy the custom
validator requiring it to lie strictly in the future. -/
def schemaValid (r : UrlRecord) (now : ℤ) : Bool :=
  r.originalUrl ≠ "" && schemaUrlMatch r.originalUrl &&
  r.shortCode ≠ "" && 5 ≤ r.shortCode.length && r.shortCode.length ≤ 10 &&
  (match r.expiresAt with
   | none => true
   | some e => now < e)

/-- The body of a Create request: url and shortcode are absent or strings at
the boundary the claims speak about; validity is any JSON value. -/
structure CreateRequest where
  url : Option String
  validity : JsValue
  shortcode : Option String
deriving Repr, DecidableEq

/-- JS truthiness of an optional string field (absent and empty are falsy). -/
def strTruthy : Option String → Bool
  | some s => s ≠ ""
  | none => false

/-- The outcome of createShortUrl, one constructor per HTTP response the
controller can produce. -/
inductive CreateResult where
  /-- Status 400, original URL is required. -/
  | missingUrl
  /-- Status 400, invalid URL format. -/
  | invalidUrl
  /-- Status 400, validity must be a positive number of minutes. -/
  | invalidValidity
  /-- Status 409, custom shortcode is already in use. -/
  | codeConflict
  /-- Status 400, custom shortcode must be 5-10 alphanumeric characters. -/
  | codeFormatInvalid
  /-- Status 500, failed to generate a unique shortcode. -/
  | generationExhausted
  /-- Status 400, a Mongoose ValidationError surfaced from save. -/
  | validationError
  /-- Status 201 with the created view of shortCode, originalUrl, expiry. -/
  | created (shortCode : String) (originalUrl : String) (expiry : Option ℤ)
deriving Repr, DecidableEq

/-- The JS string trim applied by the schema (whitespace stripped from both
ends), on the explicit character list. -/
def trimJs (s : String) : String :=
  String.mk (((s.toList.dropWhile jsWhitespace).reverse.dropWhile jsWhitespace).reverse)

/-- The document the controller constructs for insertion: the (trimmed)
original URL and code, creation instant now, the computed expiry, zero
clicks, empty history. -/
def newRecord (originalUrl : String) (validity : JsValue) (code : String)
    (now : ℤ) : UrlRecord :=
  { originalUrl := trimJs originalUrl
    shortCode := trimJs code
    createdAt := now
    expiresAt := calculateExpiry (validity.orDefault 30) now
    clicks := 0
    clickHistory := [] }

/-- The tail of the create path once a code is fixed: compute the expiry of
validity-or-30, build the document and save it; a schema-validation failure
is caught and reported as a 400 with nothing persisted. -/
def finishCreate (repo : Repo) (originalUrl : String) (validity : JsValue)
    (code : String) (now : ℤ) : CreateResult × Repo :=
  let rec0 := newRecord originalUrl validity code now
  if schemaValid rec0 now then
    (.created rec0.shortCode rec0.originalUrl rec0.expiresAt, repo ++ [rec0])
  else (.validationError, repo)

/-- Embeds createShortUrl of the controller, single-instant semantics (now
is the clock reading of the request).  Mirrors the source order: missing-URL
check, URL parse check, validity guard, then either the custom-shortcode
branch (availability first, then format) or the generation loop, then expiry
computation, then schema-validated insertion. -/
def createShortUrl (repo : Repo) (req : CreateRequest) (entropy : ℕ → ℕ)
    (now : ℤ) : CreateResult × Repo :=
  if !strTruthy req.url then (.missingUrl, repo)
  else
    let originalUrl := req.url.getD ""
    if !isValidUrl originalUrl then (.invalidUrl, repo)
    else if req.validity ≠ .undefined ∧
        (req.validity.isNumber = false ∨ req.validity.numVal ≤ 0) then
      (.invalidValidity, repo)
    else if strTruthy req.shortcode then
      let c := req.shortcode.getD ""
      if (findByCode repo c).isSome then (.codeConflict, repo)
      else if !customCodeFormat c then (.codeFormatInvalid, repo)
      else finishCreate repo originalUrl req.validity c now
    else
      match findFreshCode repo entropy 0 5 with
      | none => (.generationExhausted, repo)
      | some code => finishCreate repo originalUrl req.validity code now

/-- The expiry test the controller runs on reads: the record has an
expiresAt and it lies strictly before the current instant. -/
def expiredCheck (r : UrlRecord) (now : ℤ) : Bool :=
  match r.expiresAt with
  | some e => e < now
  | none => false

/-- Modelled from the spec: the isExpired predicate of the Expiry Policy,
true iff expiresAt is set and is at or before the current time.  Stated here
to compare the specification wording with `expiredCheck`, the test the
source actually runs. -/
def isExpiredSpec (r : UrlRecord) (now : ℤ) : Bool :=
  match r.expiresAt with
  | some e => e ≤ now
  | none => false

/-- The outcome of getShortUrlStats, one constructor per HTTP response. -/
inductive StatsResult where
  /-- Status 404, short URL not found. -/
  | notFound
  /-- Status 410, short URL has expired. -/
  | gone
  /-- Status 200 with the full record view including the click history. -/
  | ok (shortCode : String) (originalUrl : String) (createdAt : ℤ)
      (expiresAt : Option ℤ) (totalClicks : ℕ) (clickHistory : List ClickEvent)
deriving Repr, DecidableEq

/-- Embeds getShortUrlStats of the controller: lookup, then the expiry
check (strictly-before-now), then the full statistics view.  Reads never
mutate the repository. -/
def getShortUrlStats (repo : Repo) (code : String) (now : ℤ) : StatsResult :=
  match findByCode repo code with
  | none => .notFound
  | some u =>
      if expiredCheck u now then .gone
      else .ok u.shortCode u.originalUrl u.createdAt u.expiresAt u.clicks u.clickHistory

/-- The request context a redirect sees: the referer and user-agent headers
(absent headers are none) and the requester address. -/
structure RequestContext where
  referer : Option String
  userAgent : Option String
  ip : String
deriving Repr, DecidableEq

/-- JS string disjunction over the header chain: an absent or empty string
falls through to the default. -/
def headerOr (h : Option String) (d : String) : String :=
  match h with
  | some s => if s = "" then d else s
  | none => d

/-- The source field of a recorded click: referer, else user-agent, else the
sentinel value of the controller. -/
def clickSource (ctx : RequestContext) : String :=
  headerOr ctx.referer (headerOr ctx.userAgent "Direct/Unknown")

/-- The outcome of redirectToOriginal, one constructor per HTTP response. -/
inductive RedirectResult where
  /-- Status 404, short URL not found. -/
  | notFound
  /-- Status 410, short URL has expired. -/
  | gone
  /-- Status 500, the save of the click data failed. -/
  | serverError
  /-- Status 302 redirect to the original URL. -/
  | redirect (target : String)
deriving Repr, DecidableEq

/-- Replaces the first record carrying the code (the save of the fetched
mongoose document). -/
def replaceByCode : Repo → String → UrlRecord → Repo
  | [], _, _ => []
  | r :: rs, code, u =>
      if r.shortCode = code then u :: rs else r :: replaceByCode rs code u

/-- The ClickEvent the controller builds from the request context. -/
def clickEventOf (ctx : RequestContext) (now : ℤ) : ClickEvent :=
  { timestamp := now, source := clickSource ctx, location := ctx.ip }

/-- The click update applied to the fetched document: clicks incremented by
one, one event appended at the end of the history. -/
def clickUpdate (u : UrlRecord) (ctx : RequestContext) (now : ℤ) : UrlRecord :=
  { u with clicks := u.clicks + 1
           clickHistory := u.clickHistory ++ [clickEventOf ctx now] }

/-- Embeds redirectToOriginal of the controller, single-instant semantics:
lookup, the expiry check (strictly-before-now), then the click update --
increment clicks, append one ClickEvent built from the request context --
persisted through a schema-validating save; a validation failure there is
caught and surfaced as a server error with nothing persisted. -/
def redirectToOriginal (repo : Repo) (code : String) (ctx : RequestContext)
    (now : ℤ) : RedirectResult × Repo :=
  match findByCode repo code with
  | none => (.notFound, repo)
  | some u =>
      if expiredCheck u now then (.gone, repo)
      else
        let u2 := clickUpdate u ctx now
        if schemaValid u2 now then
          (.redirect u.originalUrl, replaceByCode repo code u2)
        else (.serverError, repo)

/-- The summary view returned by the list endpoint: every stored field
except the click history. -/
structure SummaryView where
  shortCode : String
  originalUrl : String
  createdAt : ℤ
  expiresAt : Option ℤ
  totalClicks : ℕ
deriving Repr, DecidableEq

/-- The projection of one record to its summary view. -/
def summaryOf (u : UrlRecord) : SummaryView :=
  { shortCode := u.shortCode
    originalUrl := u.originalUrl
    createdAt := u.createdAt
    expiresAt := u.expiresAt
    totalClicks := u.clicks }

/-- Embeds getAllShortUrls of the controller: the projection of every stored
record, in storage order, with no expiry filtering. -/
def getAllShortUrls (repo : Repo) : List SummaryView :=
  repo.map summaryOf

/-- The record invariant the specification states: the click counter always
equals the length of the click history. -/
def clicksInvariant (r : UrlRecord) : Prop :=
  r.clicks = r.clickHistory.length

/-- A sample create request: a valid URL, no validity, no custom code. -/
def reqPlain : CreateRequest :=
  { url := some "https://example.com/a", validity := .undefined, shortcode := none }

/-- The byte stream whose every draw selects alphabet position 8, the
hyphen. -/
def entHyphen : ℕ → ℕ := fun _ => 8

/-- The repository produced by one plain create at instant 0 under
`entHyphen`: it stores a single record whose code is five hyphens. -/
def repoHyphen : Repo := (createShortUrl [] reqPlain entHyphen 0).2

/-- A record whose expiry is the instant 1000. -/
def recBoundary : UrlRecord :=
  { originalUrl := "https://example.com/a", shortCode := "abcd1", createdAt := 0
    expiresAt := some 1000, clicks := 0, clickHistory := [] }

/-- A request context carrying no headers. -/
def ctxBare : RequestContext := { referer := none, userAgent := none, ip := "1.2.3.4" }

/-- A request context carrying a referer and a user-agent header. -/
def ctxRef : RequestContext :=
  { referer := some "https://ref.example/p", userAgent := some "agent7", ip := "9.8.7.6" }

/-- The rational three halves, written in normal form so that the kernel can
evaluate with it: a sample fractional validity. -/
def threeHalves : ℚ := ⟨3, 2, by decide, by decide⟩

/-! ### Helper lemmas -/

theorem strTruthy_iff (o : Option String) :
    strTruthy o = true ↔ ∃ s, o = some s ∧ s ≠ "" := by
  cases o <;> simp [strTruthy]

theorem urlAlphabet_length : urlAlphabet.toList.length = 64 := by decide

theorem urlAlphabet_no_ws :
    ∀ c ∈ urlAlphabet.toList, jsWhitespace c = false := by decide

theorem nanoidChar_mem (b : ℕ) : nanoidChar b ∈ urlAlphabet.toList := by
  have h : b % 64 < urlAlphabet.toList.length := by
    rw [urlAlphabet_length]; exact Nat.mod_lt _ (by norm_num)
  rw [nanoidChar, List.getD_eq_getElem _ _ h]
  exact List.getElem_mem h

theorem nanoidAt_length (entropy : ℕ → ℕ) (i : ℕ) :
    (nanoidAt entropy i).length = 5 := by
  simp [nanoidAt, String.length]

theorem nanoidAt_mem (entropy : ℕ → ℕ) (i : ℕ) :
    ∀ c ∈ (nanoidAt entropy i).toList, c ∈ urlAlphabet.toList := by
  intro c hc
  simp only [nanoidAt, String.toList, String.mk, List.mem_map] at hc
  obtain ⟨j, _, rfl⟩ := hc
  exact nanoidChar_mem _

theorem trimJs_eq_self (s : String)
    (h : ∀ c ∈ s.toList, jsWhitespace c = false) : trimJs s = s := by
  have drop1 : s.toList.dropWhile jsWhitespace = s.toList := by
    cases hs : s.toList with
    | nil => simp
    | cons c cs =>
        have := h c (by rw [hs]; exact List.mem_cons_self _ _)
        simp [List.dropWhile, this]
  have h2 : ∀ c ∈ s.toList.reverse, jsWhitespace c = false := by
    intro c hc; exact h c (List.mem_reverse.mp hc)
  have drop2 : s.toList.reverse.dropWhile jsWhitespace = s.toList.reverse := by
    cases hs : s.toList.reverse with
    | nil => simp
    | cons c cs =>
        have := h2 c (by rw [hs]; exact List.mem_cons_self _ _)
        simp [List.dropWhile, this]
  rw [trimJs, drop1, drop2, List.reverse_reverse]
  rfl

theorem findFreshCode_some (repo : Repo) (entropy : ℕ → ℕ) :
    ∀ i fuel code, findFreshCode repo entropy i fuel = some code →
      (∃ j, code = nanoidAt entropy j) ∧ findByCode repo code = none := by
  intro i fuel
  induction fuel generalizing i with
  | zero => intro code h; simp [findFreshCode] at h
  | succ n ih =>
      intro code h
      rw [findFreshCode] at h
      by_cases hc : (findByCode repo (nanoidAt entropy i)).isNone
      · simp only [hc, if_true] at h
        cases h
        exact ⟨⟨i, rfl⟩, Option.isNone_iff_eq_none.mp hc⟩
      · simp only [hc, if_false] at h
        exact ih (i + 1) code h


/-- Inversion of a successful create: every 201 outcome comes from a present
valid URL, a passing validity guard, a code from the custom branch or the
generation loop, and a schema-valid insertion of the new document at the end
of the repository. -/
theorem createShortUrl_created {repo : Repo} {req : CreateRequest}
    {entropy : ℕ → ℕ} {now : ℤ} {c u : String} {e : Option ℤ} {repo2 : Repo}
    (h : createShortUrl repo req entropy now = (.created c u e, repo2)) :
    ∃ url code,
      req.url = some url ∧ url ≠ "" ∧ isValidUrl url = true ∧
      (req.validity = .undefined ∨ ∃ q, req.validity = .num q ∧ 0 < q) ∧
      ((∃ sc, req.shortcode = some sc ∧ sc ≠ "" ∧ code = sc ∧
          findByCode repo code = none ∧ customCodeFormat code = true) ∨
        (strTruthy req.shortcode = false ∧
          findFreshCode repo entropy 0 5 = some code)) ∧
      schemaValid (newRecord url req.validity code now) now = true ∧
      c = trimJs code ∧ u = trimJs url ∧
      e = calculateExpiry (req.validity.orDefault 30) now ∧
      repo2 = repo ++ [newRecord url req.validity code now] := by
  simp only [createShortUrl] at h
  split at h
  · exact absurd h (by simp)
  next hurl =>
  split at h
  · exact absurd h (by simp)
  next hvalid =>
  split at h
  · exact absurd h (by simp)
  next hvguard =>
  obtain ⟨url, hu, hune⟩ := (strTruthy_iff req.url).mp (by
    revert hurl; cases strTruthy req.url <;> simp)
  have hgetD : req.url.getD "" = url := by rw [hu]; rfl
  rw [hgetD] at hvalid h
  have hval : isValidUrl url = true := by
    revert hvalid; cases isValidUrl url <;> simp
  have hvcases : req.validity = .undefined ∨ ∃ q, req.validity = .num q ∧ 0 < q := by
    rcases hv : req.validity with _ | _ | b | q | t | _
    · exact Or.inl rfl
    all_goals (rw [hv] at hvguard; push_neg at hvguard)
    · simp [JsValue.isNumber] at hvguard
    · simp [JsValue.isNumber] at hvguard
    · refine Or.inr ⟨q, rfl, ?_⟩
      have := (hvguard (by simp)).2
      simpa [JsValue.numVal] using this
    · simp [JsValue.isNumber] at hvguard
    · simp [JsValue.isNumber] at hvguard
  split at h
  · -- custom shortcode branch
    next hsc =>
    obtain ⟨sc, hsceq, hscne⟩ := (strTruthy_iff req.shortcode).mp hsc
    have hscg : req.shortcode.getD "" = sc := by rw [hsceq]; rfl
    rw [hscg] at h
    split at h
    · exact absurd h (by simp)
    next htaken =>
    split at h
    · exact absurd h (by simp)
    next hfmt =>
    simp only [finishCreate] at h
    split at h
    next hschema =>
      obtain ⟨h1, h2⟩ := Prod.mk.injEq .. ▸ h
      obtain ⟨hc, hu2, he⟩ := CreateResult.created.injEq .. ▸ h1
      refine ⟨url, sc, hu, hune, hval, hvcases, ?_, hschema, ?_, ?_, ?_, ?_⟩
      · exact Or.inl ⟨sc, hsceq, hscne, rfl,
          Option.not_isSome_iff_eq_none.mp htaken, by
            revert hfmt; cases customCodeFormat sc <;> simp⟩
      · exact hc.symm
      · exact hu2.symm
      · exact he.symm
      · exact h2.symm
    · exact absurd h (by simp)
  · -- generated code branch
    next hsc =>
    have hscf : strTruthy req.shortcode = false := by
      revert hsc; cases strTruthy req.shortcode <;> simp
    split at h
    · exact absurd h (by simp)
    next code hfresh =>
    simp only [finishCreate] at h
    split at h
    next hschema =>
      obtain ⟨h1, h2⟩ := Prod.mk.injEq .. ▸ h
      obtain ⟨hc, hu2, he⟩ := CreateResult.created.injEq .. ▸ h1
      exact ⟨url, code, hu, hune, hval, hvcases, Or.inr ⟨hscf, hfresh⟩, hschema,
        hc.symm, hu2.symm, he.symm, h2.symm⟩
    · exact absurd h (by simp)


/-- Every create outcome either appends exactly one record or returns with
the repository untouched and no created view. -/
theorem createShortUrl_cases (repo : Repo) (req : CreateRequest)
    (entropy : ℕ → ℕ) (now : ℤ) :
    (∃ c u e r, createShortUrl repo req entropy now = (.created c u e, repo ++ [r])) ∨
      ((createShortUrl repo req entropy now).2 = repo ∧
        ∀ c u e, (createShortUrl repo req entropy now).1 ≠ .created c u e) := by
  simp only [createShortUrl, finishCreate]
  repeat' split
  all_goals
    first
      | (left; exact ⟨_, _, _, _, rfl⟩)
      | (right; exact ⟨rfl, by simp⟩)

theorem redirect_notFound {repo : Repo} {code : String} {ctx : RequestContext}
    {now : ℤ} (h : findByCode repo code = none) :
    redirectToOriginal repo code ctx now = (.notFound, repo) := by
  simp [redirectToOriginal, h]

theorem redirect_gone {repo : Repo} {code : String} {ctx : RequestContext}
    {now : ℤ} {u : UrlRecord} (hf : findByCode repo code = some u)
    (he : expiredCheck u now = true) :
    redirectToOriginal repo code ctx now = (.gone, repo) := by
  simp [redirectToOriginal, hf, he]

theorem redirect_success {repo : Repo} {code : String} {ctx : RequestContext}
    {now : ℤ} {u : UrlRecord} (hf : findByCode repo code = some u)
    (he : expiredCheck u now = false)
    (hs : schemaValid (clickUpdate u ctx now) now = true) :
    redirectToOriginal repo code ctx now
      = (.redirect u.originalUrl, replaceByCode repo code (clickUpdate u ctx now)) := by
  simp [redirectToOriginal, hf, he, hs]

theorem redirect_gone_iff {repo : Repo} {code : String} {ctx : RequestContext}
    {now : ℤ} {u : UrlRecord} (hf : findByCode repo code = some u) :
    (redirectToOriginal repo code ctx now).1 = .gone ↔ expiredCheck u now = true := by
  simp only [redirectToOriginal, hf]
  by_cases h : expiredCheck u now
  · simp [h]
  · simp only [h, Bool.false_eq_true, if_false]
    split <;> simp

theorem stats_gone_iff {repo : Repo} {code : String} {now : ℤ} {u : UrlRecord}
    (hf : findByCode repo code = some u) :
    getShortUrlStats repo code now = .gone ↔ expiredCheck u now = true := by
  simp only [getShortUrlStats, hf]
  by_cases h : expiredCheck u now <;> simp [h]

theorem expiredCheck_iff (u : UrlRecord) (now : ℤ) :
    expiredCheck u now = true ↔ ∃ e, u.expiresAt = some e ∧ e < now := by
  cases h : u.expiresAt with
  | none => unfold expiredCheck; rw [h]; simp
  | some e => unfold expiredCheck; rw [h]; simp

theorem expiredCheck_none {u : UrlRecord} (h : u.expiresAt = none) (now : ℤ) :
    expiredCheck u now = false := by
  unfold expiredCheck; rw [h]

theorem replaceByCode_mem {repo : Repo} {code : String} {u2 r : UrlRecord}
    (h : r ∈ replaceByCode repo code u2) : r ∈ repo ∨ r = u2 := by
  induction repo with
  | nil => simp [replaceByCode] at h
  | cons a as ih =>
      rw [replaceByCode] at h
      split at h
      · rcases List.mem_cons.mp h with h1 | h1
        · exact Or.inr h1
        · exact Or.inl (List.mem_cons_of_mem _ h1)
      · rcases List.mem_cons.mp h with h1 | h1
        · exact Or.inl (h1 ▸ List.mem_cons_self _ _)
        · rcases ih h1 with h2 | h2
          · exact Or.inl (List.mem_cons_of_mem _ h2)
          · exact Or.inr h2


theorem redirect_invalid {repo : Repo} {code : String} {ctx : RequestContext}
    {now : ℤ} {u : UrlRecord} (hf : findByCode repo code = some u)
    (he : expiredCheck u now = false)
    (hs : schemaValid (clickUpdate u ctx now) now = false) :
    redirectToOriginal repo code ctx now = (.serverError, repo) := by
  simp [redirectToOriginal, hf, he, hs]

/-- The repository after a create is unchanged or extended by exactly the
new document. -/
theorem createShortUrl_snd_cases (repo : Repo) (req : CreateRequest)
    (entropy : ℕ → ℕ) (now : ℤ) :
    (createShortUrl repo req entropy now).2 = repo ∨
      ∃ url code, (createShortUrl repo req entropy now).2
        = repo ++ [newRecord url req.validity code now] := by
  rcases createShortUrl_cases repo req entropy now with ⟨c, u, e, r, heq⟩ | ⟨h2, _⟩
  · obtain ⟨url, code, _, _, _, _, _, _, _, _, _, hrepo⟩ := createShortUrl_created heq
    right
    exact ⟨url, code, by rw [heq]; exact hrepo⟩
  · left; exact h2


/-! ### Claims -/

/-- C1 counterexample: with the byte stream that always selects position 8
of the nanoid alphabet, Create with a valid URL and no custom code succeeds
and returns the code of five hyphens, which does not match the claimed
pattern of five ASCII alphanumerics. -/
theorem c1_counterexample :
    (createShortUrl [] reqPlain entHyphen 0).1
        = .created "-----" "https://example.com/a" (some 1800000) ∧
      alnum5 "-----" = false := by
  exact ⟨by decide, by decide⟩

/-- C1 (amended): for every Create without a custom code that returns a
created view, the returned shortCode is a 5-character string drawn from the
nanoid URL alphabet (ASCII alphanumerics plus hyphen and underscore) and is
not the code of any record already stored. -/
theorem c1_generated_code {repo : Repo} {req : CreateRequest}
    {entropy : ℕ → ℕ} {now : ℤ} {c u : String} {e : Option ℤ} {repo2 : Repo}
    (hsc : strTruthy req.shortcode = false)
    (h : createShortUrl repo req entropy now = (.created c u e, repo2)) :
    c.length = 5 ∧ (∀ ch ∈ c.toList, ch ∈ urlAlphabet.toList) ∧
      findByCode repo c = none := by
  obtain ⟨url, code, _, _, _, _, hbranch, _, hc, _, _, _⟩ := createShortUrl_created h
  rcases hbranch with ⟨sc, hsceq, hscne, _, _, _⟩ | ⟨_, hfresh⟩
  · rw [hsceq] at hsc
    simp [strTruthy, hscne] at hsc
  · obtain ⟨⟨j, hj⟩, hnone⟩ := findFreshCode_some repo entropy 0 5 code hfresh
    subst hj
    have hmem := nanoidAt_mem entropy j
    have htrim : trimJs (nanoidAt entropy j) = nanoidAt entropy j :=
      trimJs_eq_self _ (fun ch hch => urlAlphabet_no_ws ch (hmem ch hch))
    subst hc
    rw [htrim]
    exact ⟨nanoidAt_length entropy j, hmem, hnone⟩

/-- C1 witness: the amended statement holds at the concrete plain create. -/
theorem c1_generated_code_witness :
    strTruthy reqPlain.shortcode = false ∧
      ("-----".length = 5 ∧ (∀ ch ∈ "-----".toList, ch ∈ urlAlphabet.toList) ∧
        findByCode [] "-----" = none) :=
  ⟨by decide,
    @c1_generated_code [] reqPlain entHyphen 0 "-----" "https://example.com/a"
      (some 1800000) repoHyphen (by decide) (by decide)⟩

/-- C2 counterexample: recBoundary expires exactly at the instant 1000, so
the specification predicate (at-or-before) calls it expired, yet GetStats
at 1000 answers with the full statistics view rather than Gone. -/
theorem c2_counterexample :
    isExpiredSpec recBoundary 1000 = true ∧
      getShortUrlStats [recBoundary] "abcd1" 1000
        = .ok "abcd1" "https://example.com/a" 0 (some 1000) 0 [] := by
  exact ⟨by decide, by decide⟩

/-- C2 (amended): a found record is treated as expired exactly when its
expiresAt is set and lies strictly before now; GetStats and Redirect return
Gone exactly in that case (even before physical eviction), and a record
with null expiresAt is never treated as expired. -/
theorem c2_expiry_semantics {repo : Repo} {code : String} {u : UrlRecord}
    (ctx : RequestContext) (now : ℤ) (hf : findByCode repo code = some u) :
    (getShortUrlStats repo code now = .gone ↔ expiredCheck u now = true) ∧
      ((redirectToOriginal repo code ctx now).1 = .gone ↔ expiredCheck u now = true) ∧
      (expiredCheck u now = true ↔ ∃ e, u.expiresAt = some e ∧ e < now) ∧
      (u.expiresAt = none → expiredCheck u now = false) :=
  ⟨stats_gone_iff hf, redirect_gone_iff hf, expiredCheck_iff u now,
    fun h => expiredCheck_none h now⟩

/-- C2 witness: the amended statement holds at recBoundary past its expiry. -/
theorem c2_expiry_semantics_witness :
    findByCode [recBoundary] "abcd1" = some recBoundary ∧
      ((getShortUrlStats [recBoundary] "abcd1" 2000 = .gone ↔
          expiredCheck recBoundary 2000 = true) ∧
        ((redirectToOriginal [recBoundary] "abcd1" ctxBare 2000).1 = .gone ↔
          expiredCheck recBoundary 2000 = true) ∧
        (expiredCheck recBoundary 2000 = true ↔
          ∃ e, recBoundary.expiresAt = some e ∧ e < 2000) ∧
        (recBoundary.expiresAt = none → expiredCheck recBoundary 2000 = false)) :=
  ⟨by decide, @c2_expiry_semantics [recBoundary] "abcd1" recBoundary ctxBare 2000 (by decide)⟩

/-- C3 counterexample: a Create whose validity is the number zero is
rejected with InvalidValidity and persists nothing, instead of defaulting
the expiry to thirty minutes as claimed. -/
theorem c3_counterexample :
    createShortUrl [] { reqPlain with validity := .num 0 } entHyphen 0
      = (.invalidValidity, []) := by decide

/-- C3 (amended): every record persisted through Create carries a non-null
expiresAt: an absent validity yields creation time plus thirty minutes, and
a positive numeric validity yields creation time plus the floor of that
many minutes (setMinutes truncates its minutes operand, so a fractional
validity loses its fractional part, and a persisted expiry is always at
least one whole minute after creation -- a positive validity below one
minute cannot pass the future-expiry save validator); a present validity
that is not a positive number is rejected before persistence rather than
defaulted. -/
theorem c3_expiry_assignment {repo : Repo} {req : CreateRequest}
    {entropy : ℕ → ℕ} {now : ℤ} {c u : String} {e : Option ℤ} {repo2 : Repo}
    (h : createShortUrl repo req entropy now = (.created c u e, repo2)) :
    (∃ r, repo2 = repo ++ [r] ∧ r.expiresAt = e) ∧
      ((req.validity = .undefined ∧ e = some (now + 60000 * 30)) ∨
        (∃ q, req.validity = .num q ∧ 0 < q ∧ 1 ≤ ⌊q⌋ ∧
          e = some (now + 60000 * ⌊q⌋))) := by
  obtain ⟨url, code, _, _, _, hv, _, hschema, _, _, he, hrepo⟩ :=
    createShortUrl_created h
  constructor
  · exact ⟨newRecord url req.validity code now, hrepo, he.symm⟩
  · rcases hv with hv | ⟨q, hv, hq⟩
    · left
      refine ⟨hv, ?_⟩
      rw [he, hv]
      simp [JsValue.orDefault, calculateExpiry]
    · right
      have hqne : q ≠ 0 := ne_of_gt hq
      have hee : calculateExpiry ((JsValue.num q).orDefault 30) now
          = some (now + 60000 * ⌊q⌋) := by
        simp [JsValue.orDefault, calculateExpiry, hqne, hq]
      refine ⟨q, hv, hq, ?_, by rw [he, hv, hee]⟩
      rw [hv] at hschema
      simp only [schemaValid, newRecord, hee, Bool.and_eq_true,
        decide_eq_true_eq] at hschema
      have hlt := hschema.2
      omega

/-- C3 witness: the amended statement holds for a concrete create with a
validity of five minutes, and a fractional validity of three halves
concretely persists an expiry of creation time plus one whole minute. -/
theorem c3_expiry_assignment_witness :
    createShortUrl [] { reqPlain with validity := .num 5 } entHyphen 0
        = (.created "-----" "https://example.com/a" (some 300000),
            (createShortUrl [] { reqPlain with validity := .num 5 } entHyphen 0).2) ∧
      ((∃ r, (createShortUrl [] { reqPlain with validity := .num 5 } entHyphen 0).2
          = [] ++ [r] ∧ r.expiresAt = some 300000) ∧
        (({ reqPlain with validity := .num 5 } : CreateRequest).validity = .undefined ∧
            (some 300000 : Option ℤ) = some (0 + 60000 * 30) ∨
          ∃ q, ({ reqPlain with validity := .num 5 } : CreateRequest).validity = .num q ∧
            0 < q ∧ 1 ≤ ⌊q⌋ ∧ (some 300000 : Option ℤ) = some (0 + 60000 * ⌊q⌋))) ∧
      (createShortUrl [] { reqPlain with validity := .num threeHalves } entHyphen 0).1
        = .created "-----" "https://example.com/a" (some 60000) :=
  ⟨by decide,
    @c3_expiry_assignment [] { reqPlain with validity := .num 5 } entHyphen 0
      "-----" "https://example.com/a" (some 300000) _ (by decide),
    by decide⟩

/-- C4 counterexample: the five-hyphen code is stored (reachably created by
the generator), so supplying it as a custom code is answered with
CodeConflict even though it fails the format regex -- the availability check
runs before the format check, and a malformed taken code is not rejected as
CodeFormatInvalid. -/
theorem c4_counterexample :
    customCodeFormat "-----" = false ∧
      createShortUrl repoHyphen { reqPlain with shortcode := some "-----" } entHyphen 0
        = (.codeConflict, repoHyphen) := by
  exact ⟨by decide, by decide⟩

/-- C4 (amended): with a truthy custom code, a valid URL and a passing
validity guard, availability is checked first: a taken code is rejected
with CodeConflict (the 409 conflict outcome, distinct from not-found)
whatever its format, and a free code that fails the 5-10 alphanumeric
format is rejected with CodeFormatInvalid. -/
theorem c4_custom_code_order {repo : Repo} {req : CreateRequest}
    {entropy : ℕ → ℕ} {now : ℤ} {sc : String}
    (hurl : strTruthy req.url = true)
    (hvalid : isValidUrl (req.url.getD "") = true)
    (hguard : ¬(req.validity ≠ .undefined ∧
      (req.validity.isNumber = false ∨ req.validity.numVal ≤ 0)))
    (hsc : req.shortcode = some sc) (hne : sc ≠ "") :
    ((findByCode repo sc).isSome = true →
        createShortUrl repo req entropy now = (.codeConflict, repo)) ∧
      (findByCode repo sc = none → customCodeFormat sc = false →
        createShortUrl repo req entropy now = (.codeFormatInvalid, repo)) := by
  have hst : strTruthy req.shortcode = true := by
    rw [hsc]; simp [strTruthy, hne]
  have hg : req.shortcode.getD "" = sc := by rw [hsc]; rfl
  constructor
  · intro htaken
    simp [createShortUrl, hurl, hvalid, hguard, hst, hg, htaken]
  · intro hfree hfmt
    simp [createShortUrl, hurl, hvalid, hguard, hst, hg, hfree, hfmt]

/-- C4 witness: both amended legs hold concretely -- the taken hyphen code
conflicts, and the free malformed code ab is a format failure. -/
theorem c4_custom_code_order_witness :
    createShortUrl repoHyphen
        { reqPlain with shortcode := some "-----" } entHyphen 0
        = (.codeConflict, repoHyphen) ∧
      createShortUrl [] { reqPlain with shortcode := some "ab" } entHyphen 0
        = (.codeFormatInvalid, []) :=
  ⟨(@c4_custom_code_order repoHyphen { reqPlain with shortcode := some "-----" }
      entHyphen 0 "-----" (by decide) (by decide) (by decide) rfl (by decide)).1
        (by decide),
    (@c4_custom_code_order [] { reqPlain with shortcode := some "ab" }
      entHyphen 0 "ab" (by decide) (by decide) (by decide) rfl (by decide)).2
        (by decide) (by decide)⟩

/-- C5 counterexample: recBoundary expires exactly at the instant 1000, the
specification predicate calls it expired, yet Redirect at 1000 does not
answer Gone (the strict check lets it through to the recording step). -/
theorem c5_counterexample :
    isExpiredSpec recBoundary 1000 = true ∧
      (redirectToOriginal [recBoundary] "abcd1" ctxBare 1000).1 ≠ .gone := by
  exact ⟨by decide, by decide⟩

/-- C5 (amended): Redirect answers NotFound when no record carries the
code; answers Gone with the repository untouched when the found record
expires strictly before now; and when the record is not strictly expired
and the updated document passes the save validation it records exactly one
click -- counter incremented by one, one event appended -- and redirects to
the stored originalUrl. -/
theorem c5_redirect_behaviour (repo : Repo) (code : String)
    (ctx : RequestContext) (now : ℤ) :
    (findByCode repo code = none →
        redirectToOriginal repo code ctx now = (.notFound, repo)) ∧
      (∀ u, findByCode repo code = some u → expiredCheck u now = true →
        redirectToOriginal repo code ctx now = (.gone, repo)) ∧
      (∀ u, findByCode repo code = some u → expiredCheck u now = false →
        schemaValid (clickUpdate u ctx now) now = true →
        redirectToOriginal repo code ctx now
            = (.redirect u.originalUrl, replaceByCode repo code (clickUpdate u ctx now)) ∧
          (clickUpdate u ctx now).clicks = u.clicks + 1 ∧
          (clickUpdate u ctx now).clickHistory
            = u.clickHistory ++ [clickEventOf ctx now]) :=
  ⟨fun h => redirect_notFound h,
    fun _ hf he => redirect_gone hf he,
    fun _ hf he hs => ⟨redirect_success hf he hs, rfl, rfl⟩⟩

/-- C5 witness: the redirect leg holds concretely on recBoundary before its
expiry. -/
theorem c5_redirect_behaviour_witness :
    findByCode [recBoundary] "abcd1" = some recBoundary ∧
      expiredCheck recBoundary 999 = false ∧
      schemaValid (clickUpdate recBoundary ctxBare 999) 999 = true ∧
      (redirectToOriginal [recBoundary] "abcd1" ctxBare 999
          = (.redirect recBoundary.originalUrl,
              replaceByCode [recBoundary] "abcd1" (clickUpdate recBoundary ctxBare 999)) ∧
        (clickUpdate recBoundary ctxBare 999).clicks = recBoundary.clicks + 1 ∧
        (clickUpdate recBoundary ctxBare 999).clickHistory
          = recBoundary.clickHistory ++ [clickEventOf ctxBare 999]) :=
  ⟨by decide, by decide, by decide,
    (c5_redirect_behaviour [recBoundary] "abcd1" ctxBare 999).2.2 recBoundary
      (by decide) (by decide) (by decide)⟩

/-- C6: a Create whose validity field is present but not a positive number
(zero, negative, boolean, string, null or object) fails with
InvalidValidity for every entropy stream, leaving the repository unchanged
and doing no generation or persistence work. -/
theorem c6_invalid_validity {repo : Repo} {req : CreateRequest} {now : ℤ}
    (hurl : strTruthy req.url = true)
    (hvalid : isValidUrl (req.url.getD "") = true)
    (hpresent : req.validity ≠ .undefined)
    (hbad : req.validity.isNumber = false ∨ req.validity.numVal ≤ 0) :
    ∀ entropy, createShortUrl repo req entropy now = (.invalidValidity, repo) := by
  intro entropy
  simp only [createShortUrl]
  split
  · next hc => rw [hurl] at hc; simp at hc
  · split
    · next hc => rw [hvalid] at hc; simp at hc
    · split
      · rfl
      · next hc => exact absurd ⟨hpresent, hbad⟩ hc

/-- C6 witness: a present non-numeric validity is rejected with the
repository unchanged. -/
theorem c6_invalid_validity_witness :
    strTruthy ({ reqPlain with validity := .str "ten" } : CreateRequest).url = true ∧
      createShortUrl [] { reqPlain with validity := .str "ten" } entHyphen 0
        = (.invalidValidity, []) :=
  ⟨by decide,
    @c6_invalid_validity [] { reqPlain with validity := .str "ten" } 0
      (by decide) (by decide) (by decide) (Or.inl (by decide)) entHyphen⟩


/-- C7: a record created through Create starts with zero clicks and an
empty history, and both Create and Redirect preserve the invariant that the
click counter equals the length of the click history for every stored
record. -/
theorem c7_clicks_invariant (repo : Repo) (req : CreateRequest)
    (entropy : ℕ → ℕ) (code : String) (ctx : RequestContext) (now : ℤ) :
    (∀ c u e repo2, createShortUrl repo req entropy now = (.created c u e, repo2) →
        ∃ r, repo2 = repo ++ [r] ∧ r.clicks = 0 ∧ r.clickHistory = []) ∧
      ((∀ r ∈ repo, clicksInvariant r) →
        ∀ r ∈ (createShortUrl repo req entropy now).2, clicksInvariant r) ∧
      ((∀ r ∈ repo, clicksInvariant r) →
        ∀ r ∈ (redirectToOriginal repo code ctx now).2, clicksInvariant r) := by
  refine ⟨?_, ?_, ?_⟩
  · intro c u e repo2 h
    obtain ⟨url, gcode, _, _, _, _, _, _, _, _, _, hrepo⟩ := createShortUrl_created h
    exact ⟨newRecord url req.validity gcode now, hrepo, rfl, rfl⟩
  · intro hinv r hr
    rcases createShortUrl_snd_cases repo req entropy now with h2 | ⟨url, gcode, h2⟩
    · rw [h2] at hr; exact hinv r hr
    · rw [h2] at hr
      rcases List.mem_append.mp hr with h3 | h3
      · exact hinv r h3
      · have hre : r = newRecord url req.validity gcode now := by simpa using h3
        subst hre
        simp [clicksInvariant, newRecord]
  · intro hinv r hr
    cases hfind : findByCode repo code with
    | none => rw [redirect_notFound hfind] at hr; exact hinv r hr
    | some u =>
        cases hexp : expiredCheck u now with
        | true => rw [redirect_gone hfind hexp] at hr; exact hinv r hr
        | false =>
            cases hs : schemaValid (clickUpdate u ctx now) now with
            | false => rw [redirect_invalid hfind hexp hs] at hr; exact hinv r hr
            | true =>
                rw [redirect_success hfind hexp hs] at hr
                rcases replaceByCode_mem hr with h1 | h1
                · exact hinv r h1
                · subst h1
                  have hu : u ∈ repo := List.mem_of_find?_eq_some hfind
                  have hiu := hinv u hu
                  simp only [clicksInvariant, clickUpdate, clickEventOf] at *
                  simp [hiu]

/-- C7 witness: the freshly created record of the concrete plain create has
zero clicks and an empty history. -/
theorem c7_clicks_invariant_witness :
    ∃ r, repoHyphen = [] ++ [r] ∧ r.clicks = 0 ∧ r.clickHistory = [] :=
  (c7_clicks_invariant [] reqPlain entHyphen "x" ctxBare 0).1
    "-----" "https://example.com/a" (some 1800000) repoHyphen (by decide)

/-- C8: the event a successful redirect appends takes its source from the
referer header when present and nonempty, else the user-agent header when
present and nonempty, else the sentinel string of the controller, and its
location is the raw requester address. -/
theorem c8_click_source (repo : Repo) (code : String) (ctx : RequestContext)
    (now : ℤ) (u : UrlRecord) (hf : findByCode repo code = some u)
    (he : expiredCheck u now = false)
    (hs : schemaValid (clickUpdate u ctx now) now = true) :
    (redirectToOriginal repo code ctx now).2
        = replaceByCode repo code (clickUpdate u ctx now) ∧
      (clickUpdate u ctx now).clickHistory
        = u.clickHistory ++ [clickEventOf ctx now] ∧
      (clickEventOf ctx now).location = ctx.ip ∧
      (∀ r, ctx.referer = some r → r ≠ "" → (clickEventOf ctx now).source = r) ∧
      ((ctx.referer = none ∨ ctx.referer = some "") →
        ∀ a, ctx.userAgent = some a → a ≠ "" → (clickEventOf ctx now).source = a) ∧
      ((ctx.referer = none ∨ ctx.referer = some "") →
        (ctx.userAgent = none ∨ ctx.userAgent = some "") →
        (clickEventOf ctx now).source = "Direct/Unknown") := by
  refine ⟨by rw [redirect_success hf he hs], rfl, rfl, ?_, ?_, ?_⟩
  · intro r hr hne
    simp [clickEventOf, clickSource, headerOr, hr, hne]
  · rintro (h | h) a ha hane <;>
      simp [clickEventOf, clickSource, headerOr, h, ha, hane]
  · rintro (h | h) (h2 | h2) <;>
      simp [clickEventOf, clickSource, headerOr, h, h2]

/-- C8 witness: the source and location facts hold concretely for a
redirect carrying a referer header. -/
theorem c8_click_source_witness :
    findByCode [recBoundary] "abcd1" = some recBoundary ∧
      (clickEventOf ctxRef 500).source = "https://ref.example/p" ∧
      (clickEventOf ctxRef 500).location = "9.8.7.6" :=
  ⟨by decide,
    (@c8_click_source [recBoundary] "abcd1" ctxRef 500 recBoundary
        (by decide) (by decide) (by decide)).2.2.2.1
      "https://ref.example/p" rfl (by decide),
    (@c8_click_source [recBoundary] "abcd1" ctxRef 500 recBoundary
        (by decide) (by decide) (by decide)).2.2.1⟩

/-- C9: ListAll returns the summary projection (a view without click
history) of every stored record, one entry per record, in repository order,
with no filtering of logically expired records. -/
theorem c9_list_all (repo : Repo) :
    (getAllShortUrls repo).length = repo.length ∧
      (∀ i : ℕ, (getAllShortUrls repo)[i]? = (repo[i]?).map summaryOf) ∧
      (∀ u ∈ repo, summaryOf u ∈ getAllShortUrls repo) ∧
      (∀ now u, u ∈ repo → isExpiredSpec u now = true →
        summaryOf u ∈ getAllShortUrls repo) := by
  refine ⟨by simp [getAllShortUrls], fun i => by simp [getAllShortUrls], ?_, ?_⟩
  · intro u hu
    exact List.mem_map_of_mem _ hu
  · intro _ u hu _
    exact List.mem_map_of_mem _ hu

/-- C9 witness: the expired record recBoundary still appears in the list
view. -/
theorem c9_list_all_witness :
    isExpiredSpec recBoundary 2000 = true ∧
      summaryOf recBoundary ∈ getAllShortUrls [recBoundary] :=
  ⟨by decide, (c9_list_all [recBoundary]).2.2.2 2000 recBoundary
    (List.mem_singleton.mpr rfl) (by decide)⟩

/-- C10: Create succeeds only for a URL that both passes the WHATWG parse
check and (after trimming) matches the persistence schema pattern; every
other outcome leaves the repository unchanged; and the mailto URL, which
parses but fails the pattern, is rejected as a save-time validation failure
with nothing persisted. -/
theorem c10_url_validation :
    (∀ repo req entropy now c u e repo2,
        createShortUrl repo req entropy now = (.created c u e, repo2) →
        ∃ url, req.url = some url ∧ isValidUrl url = true ∧
          schemaUrlMatch (trimJs url) = true) ∧
      (∀ repo req entropy now,
        (∃ c u e r, createShortUrl repo req entropy now = (.created c u e, repo ++ [r])) ∨
          ((createShortUrl repo req entropy now).2 = repo ∧
            ∀ c u e, (createShortUrl repo req entropy now).1 ≠ .created c u e)) ∧
      (createShortUrl [] { reqPlain with url := some "mailto:user@example.com" }
          entHyphen 0 = (.validationError, []) ∧
        isValidUrl "mailto:user@example.com" = true ∧
        schemaUrlMatch "mailto:user@example.com" = false) := by
  refine ⟨?_, createShortUrl_cases, by decide, by decide, by decide⟩
  intro repo req entropy now c u e repo2 h
  obtain ⟨url, code, hu, _, hval, _, _, hschema, _, _, _, _⟩ := createShortUrl_created h
  refine ⟨url, hu, hval, ?_⟩
  simp only [schemaValid, newRecord, Bool.and_eq_true] at hschema
  exact hschema.1.1.1.1.2

/-- C10 witness: the success-only-if direction applied at the concrete
plain create. -/
theorem c10_url_validation_witness :
    ∃ url, reqPlain.url = some url ∧ isValidUrl url = true ∧
      schemaUrlMatch (trimJs url) = true :=
  c10_url_validation.1 [] reqPlain entHyphen 0 "-----" "https://example.com/a"
    (some 1800000) repoHyphen (by decide)

end UrlShortener
